import Mathlib

/-!
Shallow embedding of the CoreDNS operator charm (charm-coredns repository):
`src/charm.py` (class `CoreDNSCharm`) and `src/coredns_manifests.py`
(class `CoreDNSManifests` and its manipulations).

Modelling conventions:
* Python values stored in the charm config mapping become `ConfigVal`
  (string / int / bool / None); the mapping `model.config` is an
  association list with unique keys (a dict), looked up with `List.lookup`.
* The stored state slot `config_hash` starts as the integer `0` and is later
  assigned the sha256 hexdigest string; since Python compares `0 == "..."`
  as `False`, the slot is the sum type `HashVal`.
* Effects of one reconcile pass (apply calls, purge deletions, statuses set
  via `status.add` versus direct `unit.status` assignment, relation
  publications, workload-version writes) are recorded in a `Trace`.
* `status.ReconcilerError` control flow (raised, then caught by the
  Reconciler framework) is modelled by an `Option String` error component:
  `some msg` means the pass raised with that message.
* External I/O outcomes (leadership, resource analyses, per-manifest apply
  results, service address lookup, relation write failures) are inputs of
  the pass, collected in `Env`.
-/

/-- A value in the charm's configuration mapping (`model.config`). -/
inductive ConfigVal
  | str (s : String)
  | int (n : Int)
  | bool (b : Bool)
  | null
deriving DecidableEq, Repr

/-- The charm configuration: Python dict as an association list. -/
abbrev ModelConfig := List (String × ConfigVal)

/-- Python truthiness of a config value (`if not value`). -/
def truthy : ConfigVal → Bool
  | .str s => s ≠ ""
  | .int n => n ≠ 0
  | .bool b => b
  | .null => false

/-- Python `str()` conversion of a config value. -/
def pyStr : ConfigVal → String
  | .str s => s
  | .int n => toString n
  | .bool b => if b then "True" else "False"
  | .null => "None"

/-- Truthiness of an optional lookup result (`config.get(k)` then `if not value`). -/
def optTruthy : Option ConfigVal → Bool
  | some v => truthy v
  | none => false

/-- The `config` property of `CoreDNSManifests`, first half: drop entries whose
value is the empty string or `None` (`if value == "" or value is None: del`). -/
def dropEmpty (cfg : ModelConfig) : ModelConfig :=
  cfg.filter fun kv => !(kv.2 == ConfigVal.str "" || kv.2 == ConfigVal.null)

/-- Overwrite dict key `k` with value `v` (Python `d[k] = v`); as an
association list: remove old entries for `k` and append the new binding
(the position of the binding is irrelevant to lookup and to the sorted
serialization used by `hash`). -/
def setKey (c : ModelConfig) (k : String) (v : ConfigVal) : ModelConfig :=
  c.filter (fun kv => !(kv.1 == k)) ++ [(k, v)]

/-- The `config` property of `CoreDNSManifests`: drop empties, then
`config["release"] = config.pop("coredns_release", None)`. -/
def configOf (cfg : ModelConfig) : ModelConfig :=
  let c := dropEmpty cfg
  let rel := (List.lookup "coredns_release" c).getD ConfigVal.null
  setKey (c.filter fun kv => !(kv.1 == "coredns_release")) "release" rel

/-- Minimal JSON string escaping as performed by `json.dumps` on the strings
appearing here (quote and backslash; the claims settled below depend only on
the encoder being a fixed function of its input). -/
def jsonEscape (s : String) : String :=
  String.mk (s.data.foldr (fun c acc =>
    if c = '"' then '\\' :: '"' :: acc
    else if c = '\\' then '\\' :: '\\' :: acc
    else c :: acc) [])

/-- JSON encoding of one config value (`json.dumps` on scalars). -/
def encodeVal : ConfigVal → String
  | .str s => "\"" ++ jsonEscape s ++ "\""
  | .int n => toString n
  | .bool b => if b then "true" else "false"
  | .null => "null"

/-- The keys of the dict, in sorted order (`json.dumps(..., sort_keys=True)`
emits each key exactly once, sorted). -/
def sortedKeys (c : ModelConfig) : List String :=
  List.insertionSort (· ≤ ·) (c.map Prod.fst).dedup

/-- Canonical serialization of the config produced by
`json.dumps(self.config, sort_keys=True)`. -/
def jsonCanon (c : ModelConfig) : String :=
  "\x7b" ++ String.intercalate ", "
    ((sortedKeys c).map fun k =>
      encodeVal (ConfigVal.str k) ++ ": " ++ encodeVal ((List.lookup k c).getD ConfigVal.null))
    ++ "\x7d"

/-- Modelled stand-in for the `hashlib.sha256(...).hexdigest()` digest of a
string (library code, not part of this repository): an arbitrary fixed
deterministic function of the input bytes. Every claim settled below
depends only on the digest being a function of the serialized string, never
on the particular SHA-256 arithmetic. -/
def sha256hexModel (s : String) : String :=
  toString (s.data.foldl (fun a c => (a * 257 + c.toNat) % (2 ^ 256)) 0)

/-- The `hash` method of `CoreDNSManifests`: sha256 hexdigest of the
sorted-keys JSON serialization of `self.config`. -/
def manifestsHash (cfg : ModelConfig) : String :=
  sha256hexModel (jsonCanon (configOf cfg))

/-- The `evaluate` method of `CoreDNSManifests`: for `prop` in
`["corefile", "coredns_namespace"]`, if `self.config.get(prop)` is falsy,
return the waiting-for-definition message for the first such prop. -/
def manifestsEvaluate (cfg : ModelConfig) : Option String :=
  if !(optTruthy (List.lookup "corefile" (configOf cfg))) then
    some "Provider manifests waiting for definition of corefile"
  else if !(optTruthy (List.lookup "coredns_namespace" (configOf cfg))) then
    some "Provider manifests waiting for definition of coredns_namespace"
  else none

/-- The value stored in `stored.config_hash`: initially the Python int `0`,
later the hexdigest string; `0 == "..."` is `False` in Python, hence a sum. -/
inductive HashVal
  | iVal (n : Nat)
  | sVal (s : String)
deriving DecidableEq, Repr

/-- The charm's `StoredState` slots. -/
structure Stored where
  config_hash : HashVal
  deployed : Bool
  destroying : Bool
deriving DecidableEq, Repr

/-- Initial stored state (`set_default(config_hash=0, deployed=False,
destroying=False)`). -/
def Stored.init : Stored :=
  { config_hash := HashVal.iVal 0, deployed := false, destroying := false }

/-- A workload status value (`ops.MaintenanceStatus` etc.). -/
inductive Status
  | maintenance (msg : String)
  | waiting (msg : String)
  | blocked (msg : String)
  | active (msg : String)
deriving DecidableEq, Repr

/-- Observable effects of one reconcile pass. -/
structure Trace where
  applyCalls : Nat
  purgeDeletes : Nat
  evaluated : Bool
  analyzed : Bool
  published : List (Option (String × String × String))
  added : List Status
  unitSet : List Status
  appSet : List Status
  workloadVersions : List String
deriving DecidableEq, Repr

/-- The empty trace at the start of a pass. -/
def Trace.empty : Trace :=
  { applyCalls := 0, purgeDeletes := 0, evaluated := false, analyzed := false,
    published := [], added := [], unitSet := [], appSet := [], workloadVersions := [] }

/-- A lifecycle event kind as dispatched to `reconcile`. -/
inductive Event
  | install
  | configChanged
  | updateStatus
  | stop
  | remove
deriving DecidableEq, Repr

/-- Whether the event is a teardown event (`ops.StopEvent`/`ops.RemoveEvent`). -/
def isTeardown : Event → Bool
  | .stop => true
  | .remove => true
  | _ => false

/-- External facts consumed by one reconcile pass. -/
structure Env where
  leader : Bool
  cfg : ModelConfig
  conflicting : List (List String)
  applyResults : List (Option String)
  unready : List String
  serviceAddress : String
  relationFailures : List Bool
  shortVersion : String
  longVersion : String

/-- Total number of conflicting identities over all resource analyses
(`sum(len(a.conflicting) for a in analyses)`). -/
def collisionCount (env : Env) : Nat :=
  (env.conflicting.map List.length).sum

/-- The collision message built by `prevent_collisions`. -/
def collisionMsg (n : Nat) : String :=
  toString n ++ " Kubernetes resource collision" ++ (if n = 1 then "" else "s")
    ++ " (action: list-resources)"

/-- The `_destroying` method: latched `stored.destroying`, set on
stop/remove events. Returns the flag together with the updated state. -/
def destroyingCheck (st : Stored) (ev : Event) : Bool × Stored :=
  if st.destroying then (true, st)
  else if isTeardown ev then (true, { st with destroying := true })
  else (false, st)

/-- The `_purge_all_manifests` method: maintenance status, one
`delete_manifests` per manifest in the collector, then reset the stored
hash to the integer 0. -/
def purgeAllManifests (env : Env) (st : Stored) (tr : Trace) : Stored × Trace :=
  ({ st with config_hash := HashVal.iVal 0 },
   { tr with
      unitSet := tr.unitSet ++ [Status.maintenance "Removing Kubernetes resources"],
      purgeDeletes := tr.purgeDeletes + env.applyResults.length })

/-- The `evaluate_manifests` method: maintenance status, run
`manifest.evaluate()`; a nonempty evaluation blocks and raises, otherwise
return `manifest.hash()`. -/
def evaluateManifests (cfg : ModelConfig) (tr : Trace) : Trace × Except String HashVal :=
  let tr1 := { tr with
      unitSet := tr.unitSet ++ [Status.maintenance "Evaluating CoreDNS"],
      evaluated := true }
  match manifestsEvaluate cfg with
  | some e => ({ tr1 with added := tr1.added ++ [Status.blocked e] }, Except.error e)
  | none => (tr1, Except.ok (HashVal.sVal (manifestsHash cfg)))

/-- The `prevent_collisions` method: on the leader, analyze resources and
block when any analysis reports a conflicting identity. -/
def preventCollisions (env : Env) (tr : Trace) : Trace × Option String :=
  if env.leader then
    let tr1 := { tr with
        unitSet := tr.unitSet ++ [Status.maintenance "Detecting manifest collisions"],
        analyzed := true }
    let n := collisionCount env
    if 0 < n then
      ({ tr1 with added := tr1.added ++ [Status.blocked (collisionMsg n)] },
       some (collisionMsg n))
    else (tr1, none)
  else (tr, none)

/-- The apply loop of `install_manifests`: `apply_manifests()` per manifest;
the first `ManifestClientError` adds a Waiting status and raises. -/
def applyLoop (results : List (Option String)) (tr : Trace) : Trace × Option String :=
  match results with
  | [] => (tr, none)
  | none :: rest => applyLoop rest { tr with applyCalls := tr.applyCalls + 1 }
  | some e :: _ =>
    ({ tr with
        applyCalls := tr.applyCalls + 1,
        added := tr.added ++ [Status.waiting e] }, some e)

/-- The `install_manifests` method: no-op fast path when the stored hash
equals the computed hash; otherwise the leader applies every manifest, and
(on any unit) the stored hash is updated once no error was raised. -/
def installManifests (st : Stored) (env : Env) (h : HashVal) (tr : Trace) :
    Stored × Trace × Option String :=
  if st.config_hash = h then (st, tr, none)
  else if env.leader then
    let tr1 := { tr with
        unitSet := tr.unitSet ++ [Status.maintenance "Deploying CoreDNS"],
        workloadVersions := tr.workloadVersions ++ [""] }
    match applyLoop env.applyResults tr1 with
    | (tr2, some e) => (st, tr2, some e)
    | (tr2, none) => ({ st with config_hash := h }, tr2, none)
  else ({ st with config_hash := h }, tr, none)

/-- The `_provide_kube_dns` method: for every `dns-provider` relation, write
`{domain, sdn-ip, port}`; a `ModelError` is logged (recorded as `none`) and
does not propagate. -/
def provideKubeDns (env : Env) (tr : Trace) : Trace :=
  { tr with
      published := tr.published ++ env.relationFailures.map fun failed =>
        if failed then none
        else some (pyStr ((List.lookup "domain" env.cfg).getD ConfigVal.null),
                   env.serviceAddress, "53") }

/-- The `_update_status` method: publish relation data, then first-match
status rules — unready set nonempty, missing service address, else active. -/
def updateStatus (env : Env) (tr : Trace) : Trace × Option String :=
  let tr1 := provideKubeDns env tr
  if env.unready ≠ [] then
    ({ tr1 with added := tr1.added ++ [Status.waiting (String.intercalate ", " env.unready)] },
     some "Waiting for deployment")
  else if env.serviceAddress = "" then
    ({ tr1 with added := tr1.added ++ [Status.waiting "Waiting for DNS service address"] },
     some "No service address")
  else
    let tr2 := { tr1 with workloadVersions := tr1.workloadVersions ++ [env.shortVersion] }
    (if env.leader then { tr2 with appSet := tr2.appSet ++ [Status.active env.longVersion] }
     else tr2, none)

/-! Resource rendering: the manifest bundle and the `AdjustServiceAccount`
subtraction from `coredns_manifests.py`. -/

/-- A Kubernetes resource kind appearing in the coredns manifest bundle. -/
inductive Kind
  | clusterRole
  | clusterRoleBinding
  | configMap
  | deployment
  | service
  | serviceAccount
deriving DecidableEq, Repr

/-- A resource identity in the rendered set. -/
structure Resource where
  kind : Kind
  name : String
deriving DecidableEq, Repr

/-- Modelled from the spec: the bundled upstream release template resources
(`upstream/coredns` manifest files are data of this repository not present
under `src/`) — "cluster role, cluster-role-binding, config object, workload
object, service object, optional service-account object", six resources. -/
def upstreamResources : List Resource :=
  [{ kind := Kind.clusterRole, name := "system:coredns" },
   { kind := Kind.clusterRoleBinding, name := "system:coredns" },
   { kind := Kind.configMap, name := "coredns" },
   { kind := Kind.deployment, name := "coredns" },
   { kind := Kind.serviceAccount, name := "coredns" },
   { kind := Kind.service, name := "kube-dns" }]

/-- Scanner for Python `str.format(model=model_name)` as used by
`_model_formatter`: every occurrence of the `model` placeholder (the word
model in braces) is replaced by the model name; other text is copied
(format features unused by this charm, such as brace escapes, are not
exercised by its namespace templates and are not modelled). -/
def formatModel (modelName : String) : List Char → List Char
  | '\x7b' :: 'm' :: 'o' :: 'd' :: 'e' :: 'l' :: '\x7d' :: rest =>
    modelName.data ++ formatModel modelName rest
  | c :: rest => c :: formatModel modelName rest
  | [] => []

/-- The `_model_formatter` helper: `config_ns.format(model=model_name)`. -/
def modelFormatter (configNs modelName : String) : String :=
  String.mk (formatModel modelName configNs.data)

/-- The namespace template read by the manipulations:
`self.manifests.config["coredns_namespace"]`. -/
def nsTemplate (cfg : ModelConfig) : String :=
  pyStr ((List.lookup "coredns_namespace" (configOf cfg)).getD ConfigVal.null)

/-- The `AdjustServiceAccount.__call__` subtraction: remove the object iff it
is the ServiceAccount named `coredns` and the formatted namespace equals the
model name. -/
def adjustServiceAccount (cfg : ModelConfig) (modelName : String) (r : Resource) : Bool :=
  if r.kind == Kind.serviceAccount && r.name == "coredns" then
    modelFormatter (nsTemplate cfg) modelName == modelName
  else false

/-- The rendered resource set, restricted to membership: the bundle with the
`Subtraction` manipulations applied (`AdjustServiceAccount` is the only
manipulation that removes resources; the `Patch` manipulations mutate fields
in place and never change the set of identities). -/
def renderedResources (cfg : ModelConfig) (modelName : String) : List Resource :=
  upstreamResources.filter fun r => !(adjustServiceAccount cfg modelName r)

/-! The `AdjustConfigMap.corefile` property: Python
`Template(config["corefile"]).safe_substitute(config)`. The embedding below
implements the `string.Template` scanner: `$$` is an escaped dollar,
`$\x7bident\x7d` and `$ident` are substituted when the mapping has the key
and left verbatim otherwise, and an invalid `$` is left verbatim. -/

/-- First character of a Python `string.Template` identifier. -/
def isIdStart (c : Char) : Bool :=
  c.isAlpha || c = '_'

/-- Subsequent character of a Python `string.Template` identifier. -/
def isIdChar (c : Char) : Bool :=
  c.isAlphanum || c = '_'

/-- A valid Python `string.Template` identifier. -/
def validName : List Char → Bool
  | [] => false
  | c :: cs => isIdStart c && cs.all isIdChar

/-- Replacement text for a bare named placeholder (`$ident`): the mapping's
value when the key is present (a missing key raises `KeyError`, which
`safe_substitute` converts to the placeholder verbatim). -/
def substNamed (m : String → Option String) (ident : List Char) : List Char :=
  match m (String.mk ident) with
  | some v => v.data
  | none => '$' :: ident

/-- Replacement text for a braced placeholder candidate (`$\x7bacc\x7d`): the
mapping's value when the accumulated text is a valid identifier with a
present key; the whole placeholder verbatim otherwise. -/
def substBr (m : String → Option String) (acc : List Char) : List Char :=
  if validName acc then
    match m (String.mk acc) with
    | some v => v.data
    | none => '$' :: '\x7b' :: (acc ++ ['\x7d'])
  else '$' :: '\x7b' :: (acc ++ ['\x7d'])

/-- Scanner state for `safe_substitute`: copying plain text, just after an
unescaped dollar, inside a braced placeholder, or inside a bare name. -/
inductive ScanState
  | normal
  | dollar
  | braced (acc : List Char)
  | named (acc : List Char)

/-- Output flushed for the pending state when the template ends. -/
def flushState (m : String → Option String) : ScanState → List Char
  | .normal => []
  | .dollar => ['$']
  | .braced acc => '$' :: '\x7b' :: acc
  | .named acc => substNamed m acc

/-- The `string.Template.safe_substitute` scanner, one pass over the
template characters: `$$` is an escaped dollar, braced and bare named
placeholders are substituted when the key is present and left verbatim
otherwise, and an invalid `$` occurrence is left verbatim. -/
def scan (m : String → Option String) : ScanState → List Char → List Char
  | st, [] => flushState m st
  | .normal, c :: rest =>
    if c = '$' then scan m ScanState.dollar rest
    else c :: scan m ScanState.normal rest
  | .dollar, c :: rest =>
    if c = '$' then '$' :: scan m ScanState.normal rest
    else if c = '\x7b' then scan m (ScanState.braced []) rest
    else if isIdStart c then scan m (ScanState.named [c]) rest
    else '$' :: c :: scan m ScanState.normal rest
  | .braced acc, c :: rest =>
    if c = '\x7d' then substBr m acc ++ scan m ScanState.normal rest
    else if isIdChar c then scan m (ScanState.braced (acc ++ [c])) rest
    else ('$' :: '\x7b' :: acc) ++
      (if c = '$' then scan m ScanState.dollar rest
       else c :: scan m ScanState.normal rest)
  | .named acc, c :: rest =>
    if isIdChar c then scan m (ScanState.named (acc ++ [c])) rest
    else substNamed m acc ++
      (if c = '$' then scan m ScanState.dollar rest
       else c :: scan m ScanState.normal rest)

/-- `safe_substitute` on character lists. -/
def subst (m : String → Option String) (l : List Char) : List Char :=
  scan m ScanState.normal l

/-- `safe_substitute` on strings. -/
def safeSubstitute (m : String → Option String) (s : String) : String :=
  String.mk (subst m s.data)

/-- The substitution mapping used by `AdjustConfigMap.corefile`:
`self.manifests.config`, with Python `str()` conversion of the value. -/
def mappingOf (cfg : ModelConfig) (n : String) : Option String :=
  (List.lookup n (configOf cfg)).map pyStr

/-- The corefile template text `self.manifests.config["corefile"]`. -/
def corefileTemplate (cfg : ModelConfig) : String :=
  pyStr ((List.lookup "corefile" (configOf cfg)).getD ConfigVal.null)

/-- The `AdjustConfigMap.corefile` property: render the corefile template by
`safe_substitute` over the full config mapping. -/
def corefileOf (cfg : ModelConfig) : String :=
  safeSubstitute (mappingOf cfg) (corefileTemplate cfg)

/-- Result of one reconcile pass: final stored state, effect trace, and the
`ReconcilerError` message when the pass raised. -/
structure PassResult where
  stored : Stored
  trace : Trace
  err : Option String
deriving DecidableEq, Repr

/-- The `reconcile` method of `CoreDNSCharm`: teardown branch (purge on the
leader, terminal Blocked status), else evaluate, prevent collisions,
install, and update status. -/
def reconcile (st : Stored) (ev : Event) (env : Env) : PassResult :=
  let d := destroyingCheck st ev
  if d.1 then
    let p := if env.leader then purgeAllManifests env d.2 Trace.empty
             else (d.2, Trace.empty)
    { stored := p.1,
      trace := { p.2 with added := p.2.added ++ [Status.blocked "Removing CoreDNS"] },
      err := none }
  else
    match evaluateManifests env.cfg Trace.empty with
    | (tr0, Except.error e) => { stored := d.2, trace := tr0, err := some e }
    | (tr0, Except.ok h) =>
      match preventCollisions env tr0 with
      | (tr1, some e) => { stored := d.2, trace := tr1, err := some e }
      | (tr1, none) =>
        match installManifests d.2 env h tr1 with
        | (st2, tr2, some e) => { stored := st2, trace := tr2, err := some e }
        | (st2, tr2, none) =>
          let u := updateStatus env tr2
          { stored := st2, trace := u.1, err := u.2 }

/-! Characterization lemmas for the phases of a reconcile pass. -/

theorem destroyingCheck_none {st : Stored} {ev : Event}
    (h1 : st.destroying = false) (h2 : isTeardown ev = false) :
    destroyingCheck st ev = (false, st) := by
  simp [destroyingCheck, h1, h2]

theorem destroyingCheck_latched {st : Stored} {ev : Event}
    (h : st.destroying = true ∨ isTeardown ev = true) :
    (destroyingCheck st ev).1 = true ∧ (destroyingCheck st ev).2.destroying = true := by
  by_cases hs : st.destroying = true
  · simp [destroyingCheck, hs]
  · rcases h with h | h
    · exact absurd h hs
    · simp [destroyingCheck, hs, h]

theorem evaluateManifests_ok {cfg : ModelConfig} {tr : Trace}
    (h : manifestsEvaluate cfg = none) :
    evaluateManifests cfg tr =
      ({ tr with unitSet := tr.unitSet ++ [Status.maintenance "Evaluating CoreDNS"],
                 evaluated := true },
       Except.ok (HashVal.sVal (manifestsHash cfg))) := by
  simp [evaluateManifests, h]

theorem evaluateManifests_err {cfg : ModelConfig} {tr : Trace} {e : String}
    (h : manifestsEvaluate cfg = some e) :
    evaluateManifests cfg tr =
      ({ tr with unitSet := tr.unitSet ++ [Status.maintenance "Evaluating CoreDNS"],
                 evaluated := true,
                 added := tr.added ++ [Status.blocked e] },
       Except.error e) := by
  simp [evaluateManifests, h]

theorem preventCollisions_nonleader {env : Env} {tr : Trace}
    (h : env.leader = false) :
    preventCollisions env tr = (tr, none) := by
  simp [preventCollisions, h]

theorem preventCollisions_clear {env : Env} {tr : Trace}
    (hl : env.leader = true) (hc : collisionCount env = 0) :
    preventCollisions env tr =
      ({ tr with unitSet := tr.unitSet ++ [Status.maintenance "Detecting manifest collisions"],
                 analyzed := true }, none) := by
  simp [preventCollisions, hl, hc]

theorem preventCollisions_conflict {env : Env} {tr : Trace}
    (hl : env.leader = true) (hc : 0 < collisionCount env) :
    preventCollisions env tr =
      ({ tr with unitSet := tr.unitSet ++ [Status.maintenance "Detecting manifest collisions"],
                 analyzed := true,
                 added := tr.added ++ [Status.blocked (collisionMsg (collisionCount env))] },
       some (collisionMsg (collisionCount env))) := by
  simp [preventCollisions, hl, hc]

theorem applyLoop_all_ok {results : List (Option String)} :
    (∀ x ∈ results, x = none) → ∀ tr : Trace,
    applyLoop results tr = ({ tr with applyCalls := tr.applyCalls + results.length }, none) := by
  induction results with
  | nil => intro _ tr; simp [applyLoop]
  | cons x rest ih =>
    intro h tr
    have hx : x = none := h x (List.mem_cons_self x rest)
    subst hx
    rw [applyLoop, ih (fun y hy => h y (List.mem_cons_of_mem none hy))]
    simp only [List.length_cons]
    have harith : tr.applyCalls + 1 + rest.length = tr.applyCalls + (rest.length + 1) := by
      omega
    rw [harith]

theorem applyLoop_first_err {pre : List (Option String)} :
    (∀ x ∈ pre, x = none) → ∀ (e : String) (post : List (Option String)) (tr : Trace),
    applyLoop (pre ++ some e :: post) tr =
      ({ tr with applyCalls := tr.applyCalls + pre.length + 1,
                 added := tr.added ++ [Status.waiting e] }, some e) := by
  induction pre with
  | nil => intro _ e post tr; simp [applyLoop]
  | cons x rest ih =>
    intro h e post tr
    have hx : x = none := h x (List.mem_cons_self x rest)
    subst hx
    rw [List.cons_append, applyLoop, ih (fun y hy => h y (List.mem_cons_of_mem none hy))]
    simp only [List.length_cons]
    have harith : tr.applyCalls + 1 + rest.length + 1 = tr.applyCalls + (rest.length + 1) + 1 := by
      omega
    rw [harith]

theorem installManifests_fastpath {st : Stored} {env : Env} {h : HashVal} {tr : Trace}
    (he : st.config_hash = h) :
    installManifests st env h tr = (st, tr, none) := by
  simp [installManifests, he]

theorem installManifests_nonleader {st : Stored} {env : Env} {h : HashVal} {tr : Trace}
    (he : st.config_hash ≠ h) (hl : env.leader = false) :
    installManifests st env h tr = ({ st with config_hash := h }, tr, none) := by
  simp [installManifests, he, hl]

theorem installManifests_leader_ok {st : Stored} {env : Env} {h : HashVal} {tr : Trace}
    (he : st.config_hash ≠ h) (hl : env.leader = true)
    (ha : ∀ x ∈ env.applyResults, x = none) :
    installManifests st env h tr =
      ({ st with config_hash := h },
       { tr with unitSet := tr.unitSet ++ [Status.maintenance "Deploying CoreDNS"],
                 workloadVersions := tr.workloadVersions ++ [""],
                 applyCalls := tr.applyCalls + env.applyResults.length }, none) := by
  rw [installManifests]
  simp only [he, hl, if_false, if_true, ite_true, ite_false]
  rw [applyLoop_all_ok ha]

theorem installManifests_leader_err {st : Stored} {env : Env} {h : HashVal} {tr : Trace}
    {pre post : List (Option String)} {e : String}
    (he : st.config_hash ≠ h) (hl : env.leader = true)
    (ha : env.applyResults = pre ++ some e :: post) (hp : ∀ x ∈ pre, x = none) :
    installManifests st env h tr =
      (st,
       { tr with unitSet := tr.unitSet ++ [Status.maintenance "Deploying CoreDNS"],
                 workloadVersions := tr.workloadVersions ++ [""],
                 applyCalls := tr.applyCalls + pre.length + 1,
                 added := tr.added ++ [Status.waiting e] }, some e) := by
  rw [installManifests]
  simp only [he, hl, if_false, if_true, ite_true, ite_false]
  rw [ha, applyLoop_first_err hp]

theorem updateStatus_applyCalls (env : Env) (tr : Trace) :
    (updateStatus env tr).1.applyCalls = tr.applyCalls := by
  simp only [updateStatus, provideKubeDns]
  split_ifs <;> rfl

/-- Concrete clean environment used by witnesses: leader unit, complete
configuration, no conflicts, all applies succeed. -/
def envW : Env :=
  { leader := true,
    cfg := [("corefile", ConfigVal.str ". \x7b forward . 8.8.8.8 \x7d"),
            ("coredns_namespace", ConfigVal.str "kube-system"),
            ("domain", ConfigVal.str "cluster.local")],
    conflicting := [],
    applyResults := [none],
    unready := [],
    serviceAddress := "10.152.183.10",
    relationFailures := [false],
    shortVersion := "1.9.4",
    longVersion := "coredns 1.9.4" }

/-- C4: once a stop or remove event is observed (or the flag is already
latched), the stored destroying flag is true after the pass and is never
reset; the pass runs no evaluate, analysis, or apply phase, purges the
manifests exactly when the unit is leader, and publishes
Blocked "Removing CoreDNS". -/
theorem c4_destroying_latched (st : Stored) (ev : Event) (env : Env)
    (h : st.destroying = true ∨ isTeardown ev = true) :
    (reconcile st ev env).stored.destroying = true ∧
    (reconcile st ev env).trace.evaluated = false ∧
    (reconcile st ev env).trace.analyzed = false ∧
    (reconcile st ev env).trace.applyCalls = 0 ∧
    (reconcile st ev env).trace.purgeDeletes =
      (if env.leader = true then env.applyResults.length else 0) ∧
    Status.blocked "Removing CoreDNS" ∈ (reconcile st ev env).trace.added := by
  obtain ⟨h1, h2⟩ := destroyingCheck_latched h
  by_cases hl : env.leader = true <;>
    simp [reconcile, h1, h2, hl, purgeAllManifests, Trace.empty]

/-- Witness for C4 at a concrete input: initial state, a stop event, the
clean leader environment. -/
theorem c4_witness :
    (Stored.init.destroying = true ∨ isTeardown Event.stop = true) ∧
    ((reconcile Stored.init Event.stop envW).stored.destroying = true ∧
     (reconcile Stored.init Event.stop envW).trace.evaluated = false ∧
     (reconcile Stored.init Event.stop envW).trace.analyzed = false ∧
     (reconcile Stored.init Event.stop envW).trace.applyCalls = 0 ∧
     (reconcile Stored.init Event.stop envW).trace.purgeDeletes =
       (if envW.leader = true then envW.applyResults.length else 0) ∧
     Status.blocked "Removing CoreDNS" ∈ (reconcile Stored.init Event.stop envW).trace.added) :=
  ⟨by decide, c4_destroying_latched Stored.init Event.stop envW (by decide)⟩

/-- C10: on a non-leader unit, when the computed hash differs from the
stored one, `install_manifests` performs zero apply calls yet still
overwrites the stored config hash with the newly computed one, raising no
error. -/
theorem c10_nonleader_hash_update (st : Stored) (env : Env) (h : HashVal) (tr : Trace)
    (hl : env.leader = false) (hne : st.config_hash ≠ h) :
    (installManifests st env h tr).1.config_hash = h ∧
    (installManifests st env h tr).2.1.applyCalls = tr.applyCalls ∧
    (installManifests st env h tr).2.2 = none := by
  rw [installManifests_nonleader hne hl]
  exact ⟨rfl, rfl, rfl⟩

/-- Concrete non-leader environment for the C10 witness. -/
def envFollower : Env :=
  { envW with leader := false }

/-- Witness for C10 at a concrete input: follower unit, fresh stored state,
a string hash differing from the stored integer 0. -/
theorem c10_witness :
    (envFollower.leader = false ∧ Stored.init.config_hash ≠ HashVal.sVal "abc") ∧
    ((installManifests Stored.init envFollower (HashVal.sVal "abc") Trace.empty).1.config_hash =
       HashVal.sVal "abc" ∧
     (installManifests Stored.init envFollower (HashVal.sVal "abc") Trace.empty).2.1.applyCalls =
       Trace.empty.applyCalls ∧
     (installManifests Stored.init envFollower (HashVal.sVal "abc") Trace.empty).2.2 = none) :=
  ⟨⟨by decide, by decide⟩,
   c10_nonleader_hash_update Stored.init envFollower (HashVal.sVal "abc") Trace.empty
     (by decide) (by decide)⟩

/-- C1: on a leader pass that reaches analysis (evaluation succeeded) and
reports at least one conflicting identity, the reconciler adds a Blocked
status whose message starts with the collision count, raises (stopping the
pass), and performs zero apply calls. -/
theorem c1_collision_gate (st : Stored) (ev : Event) (env : Env)
    (h1 : st.destroying = false) (h2 : isTeardown ev = false)
    (hl : env.leader = true)
    (he : manifestsEvaluate env.cfg = none)
    (hc : 0 < collisionCount env) :
    (reconcile st ev env).trace.applyCalls = 0 ∧
    (reconcile st ev env).err = some (collisionMsg (collisionCount env)) ∧
    Status.blocked (collisionMsg (collisionCount env)) ∈ (reconcile st ev env).trace.added ∧
    (∃ s, collisionMsg (collisionCount env) = toString (collisionCount env) ++ s) := by
  simp only [reconcile, destroyingCheck_none h1 h2, evaluateManifests_ok he,
    preventCollisions_conflict hl hc, Trace.empty]
  refine ⟨by simp, by simp, by simp, ?_⟩
  exact ⟨" Kubernetes resource collision" ++ (if collisionCount env = 1 then "" else "s")
    ++ " (action: list-resources)", by simp [collisionMsg, String.append_assoc]⟩

/-- Concrete environment with one conflicting identity for the C1 witness. -/
def envConflict : Env :=
  { envW with conflicting := [["ConfigMap/kube-system/coredns"]] }

/-- Witness for C1 at a concrete input: leader pass with one collision. -/
theorem c1_witness :
    (Stored.init.destroying = false ∧ isTeardown Event.configChanged = false ∧
     envConflict.leader = true ∧ manifestsEvaluate envConflict.cfg = none ∧
     0 < collisionCount envConflict) ∧
    ((reconcile Stored.init Event.configChanged envConflict).trace.applyCalls = 0 ∧
     (reconcile Stored.init Event.configChanged envConflict).err =
       some (collisionMsg (collisionCount envConflict)) ∧
     Status.blocked (collisionMsg (collisionCount envConflict)) ∈
       (reconcile Stored.init Event.configChanged envConflict).trace.added ∧
     (∃ s, collisionMsg (collisionCount envConflict) =
        toString (collisionCount envConflict) ++ s)) :=
  ⟨⟨by decide, by decide, by decide, by decide, by decide⟩,
   c1_collision_gate Stored.init Event.configChanged envConflict
     (by decide) (by decide) (by decide) (by decide) (by decide)⟩

/-- C3: a transient client error while applying a manifest aborts the
remaining apply work (exactly the failing call is the last one), adds a
Waiting status carrying the failure detail, raises, and leaves the stored
config hash unchanged. -/
theorem c3_transient_apply_error (st : Stored) (ev : Event) (env : Env)
    (pre post : List (Option String)) (e : String)
    (h1 : st.destroying = false) (h2 : isTeardown ev = false)
    (he : manifestsEvaluate env.cfg = none)
    (hl : env.leader = true) (hc : collisionCount env = 0)
    (hne : st.config_hash ≠ HashVal.sVal (manifestsHash env.cfg))
    (ha : env.applyResults = pre ++ some e :: post) (hp : ∀ x ∈ pre, x = none) :
    (reconcile st ev env).err = some e ∧
    Status.waiting e ∈ (reconcile st ev env).trace.added ∧
    (reconcile st ev env).stored.config_hash = st.config_hash ∧
    (reconcile st ev env).trace.applyCalls = pre.length + 1 := by
  simp only [reconcile, destroyingCheck_none h1 h2, evaluateManifests_ok he,
    preventCollisions_clear hl hc, installManifests_leader_err hne hl ha hp, Trace.empty]
  exact ⟨by simp, by simp, by simp, by simp⟩

/-- Concrete environment whose (single) manifest apply raises a
`ManifestClientError` for the C3 witness. -/
def envApplyFail : Env :=
  { envW with applyResults := [some "client error -> connection refused"] }

/-- Witness for C3 at a concrete input: first apply call fails. -/
theorem c3_witness :
    (Stored.init.destroying = false ∧ isTeardown Event.install = false ∧
     manifestsEvaluate envApplyFail.cfg = none ∧ envApplyFail.leader = true ∧
     collisionCount envApplyFail = 0 ∧
     Stored.init.config_hash ≠ HashVal.sVal (manifestsHash envApplyFail.cfg) ∧
     envApplyFail.applyResults = [] ++ some "client error -> connection refused" :: []) ∧
    ((reconcile Stored.init Event.install envApplyFail).err =
       some "client error -> connection refused" ∧
     Status.waiting "client error -> connection refused" ∈
       (reconcile Stored.init Event.install envApplyFail).trace.added ∧
     (reconcile Stored.init Event.install envApplyFail).stored.config_hash =
       Stored.init.config_hash ∧
     (reconcile Stored.init Event.install envApplyFail).trace.applyCalls =
       List.length ([] : List (Option String)) + 1) :=
  ⟨⟨by decide, by decide, by decide, by decide, by decide, by decide, by decide⟩,
   c3_transient_apply_error Stored.init Event.install envApplyFail [] []
     "client error -> connection refused"
     (by decide) (by decide) (by decide) (by decide) (by decide) (by decide) (by decide)
     (by intro x hx; simp at hx)⟩

/-- C6: evaluation names the first missing required option in the fixed
order corefile, coredns_namespace; on a normal pass a failed evaluation is
published as Blocked with that message and the pass stops before any
analysis or apply work. -/
theorem c6_config_incomplete (cfg : ModelConfig) (st : Stored) (ev : Event) (env : Env) :
    (List.lookup "corefile" (configOf cfg) = none →
      manifestsEvaluate cfg = some "Provider manifests waiting for definition of corefile") ∧
    (∀ v, List.lookup "corefile" (configOf cfg) = some v → truthy v = true →
      List.lookup "coredns_namespace" (configOf cfg) = none →
      manifestsEvaluate cfg =
        some "Provider manifests waiting for definition of coredns_namespace") ∧
    (st.destroying = false → isTeardown ev = false → env.cfg = cfg →
      ∀ e, manifestsEvaluate cfg = some e →
      (reconcile st ev env).err = some e ∧
      Status.blocked e ∈ (reconcile st ev env).trace.added ∧
      (reconcile st ev env).trace.applyCalls = 0 ∧
      (reconcile st ev env).trace.analyzed = false) := by
  refine ⟨?_, ?_, ?_⟩
  · intro h
    simp [manifestsEvaluate, h, optTruthy]
  · intro v hv htr hns
    simp [manifestsEvaluate, hv, hns, optTruthy, htr]
  · intro h1 h2 hcfg e he
    rw [← hcfg] at he
    simp only [reconcile, destroyingCheck_none h1 h2, evaluateManifests_err he, Trace.empty]
    exact ⟨by simp, by simp, by simp, by simp⟩

/-- Concrete environment whose configuration lacks the corefile option for
the C6 witness. -/
def envNoCorefile : Env :=
  { envW with cfg := [("coredns_namespace", ConfigVal.str "kube-system"),
                      ("corefile", ConfigVal.str "")] }

/-- Witness for C6 at a concrete input: empty corefile value (dropped as
unset), evaluation blocks with the corefile message and the pass stops. -/
theorem c6_witness :
    (List.lookup "corefile" (configOf envNoCorefile.cfg) = none ∧
     manifestsEvaluate envNoCorefile.cfg =
       some "Provider manifests waiting for definition of corefile") ∧
    ((reconcile Stored.init Event.configChanged envNoCorefile).err =
       some "Provider manifests waiting for definition of corefile" ∧
     Status.blocked "Provider manifests waiting for definition of corefile" ∈
       (reconcile Stored.init Event.configChanged envNoCorefile).trace.added ∧
     (reconcile Stored.init Event.configChanged envNoCorefile).trace.applyCalls = 0 ∧
     (reconcile Stored.init Event.configChanged envNoCorefile).trace.analyzed = false) :=
  ⟨⟨by decide,
    (c6_config_incomplete envNoCorefile.cfg Stored.init Event.configChanged envNoCorefile).1
      (by decide)⟩,
   (c6_config_incomplete envNoCorefile.cfg Stored.init Event.configChanged envNoCorefile).2.2
     (by decide) (by decide) rfl _
     ((c6_config_incomplete envNoCorefile.cfg Stored.init Event.configChanged envNoCorefile).1
       (by decide))⟩

theorem reconcile_success_stored (st : Stored) (ev : Event) (env : Env)
    (h0 : st.destroying = false) (h1 : isTeardown ev = false)
    (he : manifestsEvaluate env.cfg = none)
    (hc : env.leader = true → collisionCount env = 0)
    (ha : env.leader = true → ∀ x ∈ env.applyResults, x = none) :
    (reconcile st ev env).stored =
      { st with config_hash := HashVal.sVal (manifestsHash env.cfg) } := by
  by_cases hl : env.leader = true
  · by_cases hfast : st.config_hash = HashVal.sVal (manifestsHash env.cfg)
    · simp only [reconcile, destroyingCheck_none h0 h1, evaluateManifests_ok he,
        preventCollisions_clear hl (hc hl), installManifests_fastpath hfast]
      cases st
      simp_all
    · simp only [reconcile, destroyingCheck_none h0 h1, evaluateManifests_ok he,
        preventCollisions_clear hl (hc hl), installManifests_leader_ok hfast hl (ha hl)]
      simp
  · have hl' : env.leader = false := by simpa using hl
    by_cases hfast : st.config_hash = HashVal.sVal (manifestsHash env.cfg)
    · simp only [reconcile, destroyingCheck_none h0 h1, evaluateManifests_ok he,
        preventCollisions_nonleader hl', installManifests_fastpath hfast]
      cases st
      simp_all
    · simp only [reconcile, destroyingCheck_none h0 h1, evaluateManifests_ok he,
        preventCollisions_nonleader hl', installManifests_nonleader hfast hl']
      simp

/-- C2: after a pass that reaches the hash store (evaluation succeeds, no
collision stop, every apply succeeds), a second non-teardown pass with the
identical configuration computes a hash equal to the stored one and
performs zero apply calls. -/
theorem c2_noop_fastpath (st : Stored) (ev1 ev2 : Event) (env1 env2 : Env)
    (h0 : st.destroying = false) (h1 : isTeardown ev1 = false) (h2 : isTeardown ev2 = false)
    (hcfg : env2.cfg = env1.cfg)
    (he : manifestsEvaluate env1.cfg = none)
    (hc : env1.leader = true → collisionCount env1 = 0)
    (ha : env1.leader = true → ∀ x ∈ env1.applyResults, x = none) :
    (reconcile st ev1 env1).stored.config_hash = HashVal.sVal (manifestsHash env2.cfg) ∧
    (reconcile (reconcile st ev1 env1).stored ev2 env2).trace.applyCalls = 0 := by
  have hstored := reconcile_success_stored st ev1 env1 h0 h1 he hc ha
  have hhash : (reconcile st ev1 env1).stored.config_hash =
      HashVal.sVal (manifestsHash env2.cfg) := by
    rw [hstored, hcfg]
  have hdes : (reconcile st ev1 env1).stored.destroying = false := by
    rw [hstored]
    exact h0
  refine ⟨hhash, ?_⟩
  have he2 : manifestsEvaluate env2.cfg = none := by
    rw [hcfg]
    exact he
  generalize hgen : (reconcile st ev1 env1).stored = st1
  rw [hgen] at hhash hdes
  by_cases hl2 : env2.leader = true
  · by_cases hc2 : collisionCount env2 = 0
    · simp only [reconcile, destroyingCheck_none hdes h2, evaluateManifests_ok he2,
        preventCollisions_clear hl2 hc2, installManifests_fastpath hhash]
      simp [updateStatus_applyCalls, Trace.empty]
    · have hpos : 0 < collisionCount env2 := Nat.pos_of_ne_zero hc2
      simp only [reconcile, destroyingCheck_none hdes h2, evaluateManifests_ok he2,
        preventCollisions_conflict hl2 hpos]
      simp [Trace.empty]
  · have hl2' : env2.leader = false := by simpa using hl2
    simp only [reconcile, destroyingCheck_none hdes h2, evaluateManifests_ok he2,
      preventCollisions_nonleader hl2', installManifests_fastpath hhash]
    simp [updateStatus_applyCalls, Trace.empty]

/-- Witness for C2 at a concrete input: two consecutive passes of the clean
leader environment with unchanged configuration. -/
theorem c2_witness :
    (Stored.init.destroying = false ∧ isTeardown Event.install = false ∧
     isTeardown Event.configChanged = false ∧ envW.cfg = envW.cfg ∧
     manifestsEvaluate envW.cfg = none ∧
     (envW.leader = true → collisionCount envW = 0) ∧
     (envW.leader = true → ∀ x ∈ envW.applyResults, x = none)) ∧
    ((reconcile Stored.init Event.install envW).stored.config_hash =
       HashVal.sVal (manifestsHash envW.cfg) ∧
     (reconcile (reconcile Stored.init Event.install envW).stored
        Event.configChanged envW).trace.applyCalls = 0) :=
  ⟨⟨by decide, by decide, by decide, rfl, by decide, by decide, by decide⟩,
   c2_noop_fastpath Stored.init Event.install Event.configChanged envW envW
     (by decide) (by decide) (by decide) rfl (by decide) (by decide) (by decide)⟩

/-- Concrete environment with a nonempty unready set and one relation, used
to examine the `_update_status` publication order. -/
def envC5 : Env :=
  { envW with unready := ["apps/v1/Deployment/kube-system/coredns"] }

/-- C5 counterexample: the claim states the relation-publication side effect
occurs only in the Active branch; but on this input the unready set is
nonempty, so the computation takes the first Waiting branch (no Active
status is set), and the dns-provider relation data is nevertheless
published — `_provide_kube_dns` runs unconditionally before the rules. -/
theorem c5_counterexample :
    (updateStatus envC5 Trace.empty).1.published =
      [some ("cluster.local", "10.152.183.10", "53")] ∧
    (updateStatus envC5 Trace.empty).1.added =
      [Status.waiting "apps/v1/Deployment/kube-system/coredns"] ∧
    (updateStatus envC5 Trace.empty).1.appSet = [] ∧
    (updateStatus envC5 Trace.empty).2 = some "Waiting for deployment" :=
  ⟨rfl, rfl, rfl, rfl⟩

/-- C5 amended: the status rules are applied in order with first match
winning (Waiting on unready identities, else Waiting for the service
address, else Active on the leader), publication failures do not change the
computed status, but the relation-publication side effect happens
unconditionally at the start of every `_update_status` call — on every
branch, not only the Active one. -/
theorem c5_status_rules (env : Env) :
    ((updateStatus env Trace.empty).1.published.length = env.relationFailures.length) ∧
    (env.unready ≠ [] →
      (updateStatus env Trace.empty).1.added =
        [Status.waiting (String.intercalate ", " env.unready)] ∧
      (updateStatus env Trace.empty).2 = some "Waiting for deployment" ∧
      (updateStatus env Trace.empty).1.appSet = []) ∧
    (env.unready = [] → env.serviceAddress = "" →
      (updateStatus env Trace.empty).1.added =
        [Status.waiting "Waiting for DNS service address"] ∧
      (updateStatus env Trace.empty).2 = some "No service address" ∧
      (updateStatus env Trace.empty).1.appSet = []) ∧
    (env.unready = [] → env.serviceAddress ≠ "" →
      (updateStatus env Trace.empty).1.added = [] ∧
      (updateStatus env Trace.empty).2 = none ∧
      (updateStatus env Trace.empty).1.workloadVersions = [env.shortVersion] ∧
      (env.leader = true →
        (updateStatus env Trace.empty).1.appSet = [Status.active env.longVersion]) ∧
      (env.leader = false → (updateStatus env Trace.empty).1.appSet = [])) ∧
    (∀ flags : List Bool,
      (updateStatus { env with relationFailures := flags } Trace.empty).1.added =
        (updateStatus env Trace.empty).1.added ∧
      (updateStatus { env with relationFailures := flags } Trace.empty).2 =
        (updateStatus env Trace.empty).2) := by
  by_cases hu : env.unready = []
  · by_cases hs : env.serviceAddress = ""
    · refine ⟨?_, ?_, ?_, ?_, ?_⟩
      · simp [updateStatus, provideKubeDns, Trace.empty, hu, hs]
      · intro h
        exact absurd hu h
      · intro _ _
        simp [updateStatus, provideKubeDns, Trace.empty, hu, hs]
      · intro _ h
        exact absurd hs h
      · intro flags
        simp [updateStatus, provideKubeDns, Trace.empty, hu, hs]
    · refine ⟨?_, ?_, ?_, ?_, ?_⟩
      · by_cases hl : env.leader = true <;>
          simp [updateStatus, provideKubeDns, Trace.empty, hu, hs, hl]
      · intro h
        exact absurd hu h
      · intro _ h
        exact absurd h hs
      · intro _ _
        by_cases hl : env.leader = true <;>
          simp [updateStatus, provideKubeDns, Trace.empty, hu, hs, hl]
      · intro flags
        by_cases hl : env.leader = true <;>
          simp [updateStatus, provideKubeDns, Trace.empty, hu, hs, hl]
  · refine ⟨?_, ?_, ?_, ?_, ?_⟩
    · simp [updateStatus, provideKubeDns, Trace.empty, hu]
    · intro _
      simp [updateStatus, provideKubeDns, Trace.empty, hu]
    · intro h
      exact absurd h hu
    · intro h
      exact absurd h hu
    · intro flags
      simp [updateStatus, provideKubeDns, Trace.empty, hu]

/-- Witness for the amended C5 theorem at a concrete input: nonempty unready
set takes the first Waiting branch while publication still happened. -/
theorem c5_witness :
    envC5.unready ≠ [] ∧
    ((updateStatus envC5 Trace.empty).1.published.length =
       envC5.relationFailures.length ∧
     (updateStatus envC5 Trace.empty).1.added =
       [Status.waiting (String.intercalate ", " envC5.unready)] ∧
     (updateStatus envC5 Trace.empty).2 = some "Waiting for deployment" ∧
     (updateStatus envC5 Trace.empty).1.appSet = []) :=
  ⟨by decide, (c5_status_rules envC5).1,
   (c5_status_rules envC5).2.1 (by decide)⟩

/-- C7: the rendered resource set excludes the ServiceAccount resource
exactly when the configured namespace template resolves to the model's own
namespace, in which case the set has 5 resources instead of 6. -/
theorem c7_service_account_pruning (cfg : ModelConfig) (modelName : String) :
    (({ kind := Kind.serviceAccount, name := "coredns" } : Resource) ∈
        renderedResources cfg modelName ↔
      modelFormatter (nsTemplate cfg) modelName ≠ modelName) ∧
    (renderedResources cfg modelName).length =
      (if modelFormatter (nsTemplate cfg) modelName = modelName then 5 else 6) := by
  by_cases h : modelFormatter (nsTemplate cfg) modelName = modelName <;>
    simp [renderedResources, adjustServiceAccount, upstreamResources, h]

/-- Configuration whose namespace template is the model placeholder. -/
def cfgModelNs : ModelConfig :=
  [("coredns_namespace", ConfigVal.str "\x7bmodel\x7d"),
   ("corefile", ConfigVal.str ".")]

/-- Configuration whose namespace template is the literal kube-system. -/
def cfgKubeNs : ModelConfig :=
  [("coredns_namespace", ConfigVal.str "kube-system"),
   ("corefile", ConfigVal.str ".")]

/-- Witness for C7 at the spec's concrete example: operating namespace
test-model with the model placeholder template renders 5 resources (service
account pruned); the literal kube-system template renders 6. -/
theorem c7_witness :
    (renderedResources cfgModelNs "test-model").length = 5 ∧
    (renderedResources cfgKubeNs "test-model").length = 6 := by
  constructor
  · rw [(c7_service_account_pruning cfgModelNs "test-model").2]
    decide
  · rw [(c7_service_account_pruning cfgKubeNs "test-model").2]
    decide

/-! Segment-level specification of the corefile substitution for C8. -/

/-- One segment of a corefile template: a literal chunk or a braced
placeholder. -/
inductive Seg
  | lit (s : String)
  | ph (name : String)
deriving DecidableEq, Repr

/-- Well-formedness of a segment: a literal chunk contains no dollar sign; a
placeholder name is a valid Template identifier. -/
def segOk : Seg → Bool
  | .lit s => s.data.all fun c => !(c = '$')
  | .ph n => validName n.data

/-- The template text denoted by a segment list, with each placeholder
written in the braced dollar form. -/
def segsTemplate : List Seg → String
  | [] => ""
  | .lit s :: rest => s ++ segsTemplate rest
  | .ph n :: rest => "$\x7b" ++ n ++ "\x7d" ++ segsTemplate rest

/-- The substitution the specification describes: placeholders whose name
has a key in the mapping are replaced by its value, placeholders with no
matching key are left verbatim, and literal text is unchanged. -/
def segsRender (m : String → Option String) : List Seg → String
  | [] => ""
  | .lit s :: rest => s ++ segsRender m rest
  | .ph n :: rest =>
    (match m n with
     | some v => v
     | none => "$\x7b" ++ n ++ "\x7d") ++ segsRender m rest

theorem isIdChar_of_isIdStart {c : Char} (h : isIdStart c = true) : isIdChar c = true := by
  simp only [isIdStart, Bool.or_eq_true] at h
  simp only [isIdChar, Char.isAlphanum, Bool.or_eq_true]
  rcases h with h | h
  · exact Or.inl (Or.inl h)
  · exact Or.inr h

theorem validName_all_idChar {l : List Char} (h : validName l = true) :
    ∀ c ∈ l, isIdChar c = true := by
  match l with
  | [] => intro c hc; simp at hc
  | c0 :: cs =>
    simp only [validName, Bool.and_eq_true, List.all_eq_true] at h
    intro c hc
    rcases List.mem_cons.mp hc with hc | hc
    · subst hc
      exact isIdChar_of_isIdStart h.1
    · exact h.2 c hc

theorem scan_normal_lit (m : String → Option String) (pre : List Char) :
    (∀ c ∈ pre, ¬(c = '$')) → ∀ rest : List Char,
    scan m ScanState.normal (pre ++ rest) = pre ++ scan m ScanState.normal rest := by
  induction pre with
  | nil => intro _ rest; simp
  | cons c cs ih =>
    intro h rest
    have hc : ¬(c = '$') := h c (List.mem_cons_self c cs)
    rw [List.cons_append, scan, if_neg hc, ih (fun x hx => h x (List.mem_cons_of_mem c hx))]
    rfl

theorem scan_braced_ident (m : String → Option String) (ns : List Char) :
    (∀ c ∈ ns, isIdChar c = true) → ∀ (acc rest : List Char),
    scan m (ScanState.braced acc) (ns ++ '\x7d' :: rest) =
      substBr m (acc ++ ns) ++ scan m ScanState.normal rest := by
  induction ns with
  | nil => intro _ acc rest; simp [scan]
  | cons c cs ih =>
    intro h acc rest
    have hc : isIdChar c = true := h c (List.mem_cons_self c cs)
    have hne : ¬(c = '\x7d') := by
      intro hEq
      rw [hEq] at hc
      exact absurd hc (by decide)
    rw [List.cons_append, scan, if_neg hne, if_pos hc,
      ih (fun x hx => h x (List.mem_cons_of_mem c hx))]
    simp

theorem scan_normal_braced_ph (m : String → Option String) (nd : List Char)
    (h : ∀ c ∈ nd, isIdChar c = true) (rest : List Char) :
    scan m ScanState.normal ('$' :: '\x7b' :: (nd ++ '\x7d' :: rest)) =
      substBr m nd ++ scan m ScanState.normal rest := by
  rw [scan, if_pos rfl, scan, if_neg (by decide), if_pos rfl,
    scan_braced_ident m nd h [] rest]
  simp

theorem substBr_valid (m : String → Option String) (n : String)
    (h : validName n.data = true) :
    substBr m n.data =
      (match m n with
       | some v => v
       | none => "$\x7b" ++ n ++ "\x7d").data := by
  have hmk : String.mk n.data = n := rfl
  rcases hm : m n with - | v
  · simp [substBr, h, hmk, hm, String.data_append]
  · simp [substBr, h, hmk, hm]

theorem scan_segs (m : String → Option String) (segs : List Seg)
    (hok : ∀ s ∈ segs, segOk s = true) :
    scan m ScanState.normal (segsTemplate segs).data = (segsRender m segs).data := by
  induction segs with
  | nil => rfl
  | cons sg rest ih =>
    have hrest := ih (fun s hs => hok s (List.mem_cons_of_mem sg hs))
    have hsg : segOk sg = true := hok sg (List.mem_cons_self sg rest)
    cases sg with
    | lit s =>
      have hlit : ∀ c ∈ s.data, ¬(c = '$') := by
        simpa [segOk] using hsg
      simp only [segsTemplate, segsRender, String.data_append]
      rw [scan_normal_lit m s.data hlit, hrest]
    | ph n =>
      have hvn : validName n.data = true := by simpa [segOk] using hsg
      have hall : ∀ c ∈ n.data, isIdChar c = true := validName_all_idChar hvn
      have hdollar : ("$\x7b" : String).data = ['$', '\x7b'] := rfl
      have hclose : ("\x7d" : String).data = ['\x7d'] := rfl
      simp only [segsTemplate, segsRender, String.data_append, hdollar, hclose,
        List.append_assoc, List.cons_append, List.nil_append]
      rw [scan_normal_braced_ph m n.data hall, hrest, substBr_valid m n hvn]

/-- C8: the rendered config-object content is the corefile template with
every braced placeholder whose name has a key in the configuration mapping
replaced by its value, every placeholder with no matching key left verbatim
(no error), and literal text unchanged. -/
theorem c8_corefile_substitution (segs : List Seg) (cfg : ModelConfig)
    (hok : ∀ s ∈ segs, segOk s = true)
    (htpl : List.lookup "corefile" (configOf cfg) =
      some (ConfigVal.str (segsTemplate segs))) :
    corefileOf cfg = segsRender (mappingOf cfg) segs := by
  unfold corefileOf corefileTemplate safeSubstitute subst
  rw [htpl]
  simp only [Option.getD_some, pyStr]
  rw [scan_segs (mappingOf cfg) segs hok]

/-- Segments of the spec's example template. -/
def segsExample : List Seg := [Seg.lit "forward . ", Seg.ph "forward"]

/-- Segments of the example template extended with an unresolved placeholder. -/
def segsExample2 : List Seg :=
  [Seg.lit "forward . ", Seg.ph "forward", Seg.lit " ", Seg.ph "unknown"]

/-- Configuration carrying the spec's example corefile template. -/
def cfgForward : ModelConfig :=
  [("corefile", ConfigVal.str "forward . $\x7bforward\x7d"),
   ("forward", ConfigVal.str "1.1.1.1"),
   ("coredns_namespace", ConfigVal.str "kube-system")]

/-- Configuration whose corefile template also has an unknown placeholder. -/
def cfgForwardUnknown : ModelConfig :=
  [("corefile", ConfigVal.str "forward . $\x7bforward\x7d $\x7bunknown\x7d"),
   ("forward", ConfigVal.str "1.1.1.1"),
   ("coredns_namespace", ConfigVal.str "kube-system")]

/-- Witness for C8 at the spec's concrete examples: the forward placeholder
is substituted and the unknown placeholder is left verbatim. -/
theorem c8_witness :
    corefileOf cfgForward = "forward . 1.1.1.1" ∧
    corefileOf cfgForwardUnknown = "forward . 1.1.1.1 $\x7bunknown\x7d" := by
  constructor
  · rw [c8_corefile_substitution segsExample cfgForward (by decide) (by decide)]
    decide
  · rw [c8_corefile_substitution segsExample2 cfgForwardUnknown (by decide) (by decide)]
    decide

/-! Order-independence of the configuration hash (C9). -/

theorem lookup_filter_key_ne (l : ModelConfig) (k bad : String) (hne : ¬(k = bad)) :
    List.lookup k (l.filter fun kv => !(kv.1 == bad)) = List.lookup k l := by
  induction l with
  | nil => rfl
  | cons kv rest ih =>
    obtain ⟨a, b⟩ := kv
    by_cases hb : a = bad
    · subst hb
      have hk : (k == a) = false := beq_eq_false_iff_ne.mpr hne
      simp [List.filter_cons, List.lookup_cons, hk, ih]
    · have hab : (a == bad) = false := beq_eq_false_iff_ne.mpr hb
      by_cases hk : k = a
      · subst hk
        simp [List.filter_cons, hab, List.lookup_cons]
      · have hk' : (k == a) = false := beq_eq_false_iff_ne.mpr hk
        simp [List.filter_cons, hab, List.lookup_cons, hk', ih]

theorem lookup_filter_key_self (l : ModelConfig) (bad : String) :
    List.lookup bad (l.filter fun kv => !(kv.1 == bad)) = none := by
  induction l with
  | nil => rfl
  | cons kv rest ih =>
    obtain ⟨a, b⟩ := kv
    by_cases hb : a = bad
    · subst hb
      simp [List.filter_cons, ih]
    · have hab : (a == bad) = false := beq_eq_false_iff_ne.mpr hb
      have hk : (bad == a) = false := beq_eq_false_iff_ne.mpr fun hEq => hb hEq.symm
      simp [List.filter_cons, hab, List.lookup_cons, hk, ih]

theorem lookup_configOf (c : ModelConfig) (k : String) :
    List.lookup k (configOf c) =
      (if k = "release" then
        some ((List.lookup "coredns_release" (dropEmpty c)).getD ConfigVal.null)
      else if k = "coredns_release" then none
      else List.lookup k (dropEmpty c)) := by
  simp only [configOf, setKey]
  rw [List.lookup_append]
  by_cases hr : k = "release"
  · subst hr
    rw [lookup_filter_key_self]
    simp [List.lookup_cons]
  · by_cases hcr : k = "coredns_release"
    · subst hcr
      rw [lookup_filter_key_ne _ _ _ hr, lookup_filter_key_self]
      have hk : (("coredns_release" : String) == "release") = false := by decide
      simp [List.lookup_cons, hk, hr]
    · rw [lookup_filter_key_ne _ _ _ hr, lookup_filter_key_ne _ _ _ hcr]
      have hk : (k == "release") = false := beq_eq_false_iff_ne.mpr hr
      simp [List.lookup_cons, hk, hr, hcr]

theorem configOf_lookup_congr {c1 c2 : ModelConfig}
    (h : ∀ k, List.lookup k (dropEmpty c1) = List.lookup k (dropEmpty c2)) :
    ∀ k, List.lookup k (configOf c1) = List.lookup k (configOf c2) := by
  intro k
  rw [lookup_configOf, lookup_configOf]
  by_cases hr : k = "release" <;> by_cases hcr : k = "coredns_release" <;>
    simp [hr, hcr, h]

theorem mem_keys_iff_lookup_isSome (l : ModelConfig) (k : String) :
    k ∈ l.map Prod.fst ↔ (List.lookup k l).isSome = true := by
  rw [List.lookup_isSome_iff]
  constructor
  · intro hk
    obtain ⟨p, hp, hfst⟩ := List.mem_map.mp hk
    exact ⟨p, hp, beq_iff_eq.mpr hfst.symm⟩
  · rintro ⟨p, hp, hbeq⟩
    exact List.mem_map.mpr ⟨p, hp, (beq_iff_eq.mp hbeq).symm⟩

theorem sortedKeys_congr {l1 l2 : ModelConfig}
    (h : ∀ k, List.lookup k l1 = List.lookup k l2) :
    sortedKeys l1 = sortedKeys l2 := by
  have hmem : ∀ k, k ∈ (l1.map Prod.fst).dedup ↔ k ∈ (l2.map Prod.fst).dedup := by
    intro k
    rw [List.mem_dedup, List.mem_dedup, mem_keys_iff_lookup_isSome,
      mem_keys_iff_lookup_isSome, h]
  have hperm : (l1.map Prod.fst).dedup.Perm (l2.map Prod.fst).dedup :=
    (List.perm_ext_iff_of_nodup (List.nodup_dedup _) (List.nodup_dedup _)).mpr hmem
  exact List.eq_of_perm_of_sorted
    ((List.perm_insertionSort _ _).trans (hperm.trans (List.perm_insertionSort _ _).symm))
    (List.sorted_insertionSort _ _) (List.sorted_insertionSort _ _)

theorem jsonCanon_congr {l1 l2 : ModelConfig}
    (h : ∀ k, List.lookup k l1 = List.lookup k l2) :
    jsonCanon l1 = jsonCanon l2 := by
  unfold jsonCanon
  rw [sortedKeys_congr h]
  have hmap :
      List.map (fun k => encodeVal (ConfigVal.str k) ++ ": " ++
        encodeVal ((List.lookup k l1).getD ConfigVal.null)) (sortedKeys l2) =
      List.map (fun k => encodeVal (ConfigVal.str k) ++ ": " ++
        encodeVal ((List.lookup k l2).getD ConfigVal.null)) (sortedKeys l2) :=
    List.map_congr_left fun k _ => by rw [h]
  rw [hmap]

/-- C9: the configuration hash is deterministic (a pure function of the
configuration) and order-independent: any two configuration mappings that
agree as key-value sets after dropping empty-string and None values — i.e.
whose lookups agree on every key, whatever the enumeration order — produce
the identical digest. -/
theorem c9_hash_order_independent (c1 c2 : ModelConfig)
    (h : ∀ k, List.lookup k (dropEmpty c1) = List.lookup k (dropEmpty c2)) :
    manifestsHash c1 = manifestsHash c2 := by
  unfold manifestsHash
  rw [jsonCanon_congr (configOf_lookup_congr h)]

/-- First concrete configuration for the C9 witness (includes an
empty-string entry that is dropped as unset). -/
def cfgOrder1 : ModelConfig :=
  [("corefile", ConfigVal.str "."), ("domain", ConfigVal.str "cluster.local"),
   ("extra", ConfigVal.str "")]

/-- Second concrete configuration for the C9 witness: the same key-value
set enumerated in the opposite order, without the dropped entry. -/
def cfgOrder2 : ModelConfig :=
  [("domain", ConfigVal.str "cluster.local"), ("corefile", ConfigVal.str ".")]

/-- Witness for C9 at a concrete input: the two enumeration orders hash
identically. -/
theorem c9_witness : manifestsHash cfgOrder1 = manifestsHash cfgOrder2 := by
  apply c9_hash_order_independent
  intro k
  have h1 : dropEmpty cfgOrder1 =
      [("corefile", ConfigVal.str "."), ("domain", ConfigVal.str "cluster.local")] := by
    decide
  have h2 : dropEmpty cfgOrder2 =
      [("domain", ConfigVal.str "cluster.local"), ("corefile", ConfigVal.str ".")] := by
    decide
  rw [h1, h2]
  by_cases ha : k = "corefile"
  · subst ha
    decide
  · by_cases hb : k = "domain"
    · subst hb
      decide
    · have ha' : (k == "corefile") = false := beq_eq_false_iff_ne.mpr ha
      have hb' : (k == "domain") = false := beq_eq_false_iff_ne.mpr hb
      simp [List.lookup_cons, ha', hb']
